import Mathlib

/-!
Shallow embedding of the SMS gateway resilience core
(src/utils/circuit_breaker.py and src/utils/sms_orchestrator.py,
with the provider strategy template of src/utils/sms_strategy.py).

Wall-clock time is modeled as an explicit integer parameter `now` passed to
every operation that reads the clock in the source; the source reads the
clock at most a handful of times per call and we model all reads within one
call as returning the same instant.
-/

namespace Gateway

/-- The three states of the circuit breaker, from circuit_breaker.py. -/
inductive CircuitBreakerState where
  | CLOSED
  | OPEN
  | HALF_OPEN
deriving DecidableEq, Repr

/-- The .value string of each state, as in the Python Enum. -/
def CircuitBreakerState.value : CircuitBreakerState → String
  | .CLOSED => "CLOSED"
  | .OPEN => "OPEN"
  | .HALF_OPEN => "HALF_OPEN"

/-- The mutable fields of class CircuitBreaker, plus its two construction
parameters (failure_threshold, reset_timeout). -/
structure CircuitBreaker where
  failure_threshold : Nat
  reset_timeout : Int
  state : CircuitBreakerState
  failure_count : Nat
  success_count : Nat
  last_failure_time : Option Int
deriving DecidableEq, Repr

/-- CircuitBreaker.__init__: state CLOSED, counters 0, no failure time. -/
def CircuitBreaker.init (failure_threshold : Nat) (reset_timeout : Int) :
    CircuitBreaker :=
  { failure_threshold := failure_threshold
    reset_timeout := reset_timeout
    state := .CLOSED
    failure_count := 0
    success_count := 0
    last_failure_time := none }

/-- CircuitBreaker._transition_to_open: state OPEN, last_failure_time set to
the current time, success_count zeroed. -/
def CircuitBreaker.transition_to_open (cb : CircuitBreaker) (now : Int) :
    CircuitBreaker :=
  { cb with state := .OPEN, last_failure_time := some now, success_count := 0 }

/-- CircuitBreaker._transition_to_half_open: state HALF_OPEN, success_count
zeroed. -/
def CircuitBreaker.transition_to_half_open (cb : CircuitBreaker) :
    CircuitBreaker :=
  { cb with state := .HALF_OPEN, success_count := 0 }

/-- CircuitBreaker._transition_to_closed: state CLOSED, failure_count zeroed,
last_failure_time cleared. -/
def CircuitBreaker.transition_to_closed (cb : CircuitBreaker) : CircuitBreaker :=
  { cb with state := .CLOSED, failure_count := 0, last_failure_time := none }

/-- CircuitBreaker.can_execute: returns the decision and the (possibly
updated) breaker, since the OPEN branch may transition to HALF_OPEN. -/
def CircuitBreaker.can_execute (cb : CircuitBreaker) (now : Int) :
    Bool × CircuitBreaker :=
  match cb.state with
  | .CLOSED => (true, cb)
  | .OPEN =>
    match cb.last_failure_time with
    | none => (false, cb)
    | some t =>
      if now - t ≥ cb.reset_timeout then
        (true, cb.transition_to_half_open)
      else
        (false, cb)
  | .HALF_OPEN => (true, cb)

/-- CircuitBreaker.record_success. -/
def CircuitBreaker.record_success (cb : CircuitBreaker) : CircuitBreaker :=
  match cb.state with
  | .CLOSED =>
    let cb1 := if cb.failure_count > 0 then { cb with failure_count := 0 } else cb
    { cb1 with success_count := cb1.success_count + 1 }
  | .HALF_OPEN =>
    ({ cb with success_count := cb.success_count + 1 }).transition_to_closed
  | .OPEN => cb

/-- CircuitBreaker.record_failure. -/
def CircuitBreaker.record_failure (cb : CircuitBreaker) (now : Int) :
    CircuitBreaker :=
  match cb.state with
  | .CLOSED =>
    let cb1 := { cb with failure_count := cb.failure_count + 1 }
    if cb1.failure_count ≥ cb1.failure_threshold then
      cb1.transition_to_open now
    else
      cb1
  | .HALF_OPEN => cb.transition_to_open now
  | .OPEN => cb

/-- CircuitBreaker.reset: delegates to _transition_to_closed. -/
def CircuitBreaker.reset (cb : CircuitBreaker) : CircuitBreaker :=
  cb.transition_to_closed

/-- The status dictionary returned by CircuitBreaker.get_status. -/
structure BreakerStatus where
  state : String
  failure_count : Nat
  success_count : Nat
  can_execute : Bool
  time_since_last_failure : Option Int
  remaining_timeout : Option Int
deriving DecidableEq, Repr

/-- CircuitBreaker.get_status: the dict literal evaluates state,
failure_count and success_count from the pre-call breaker, then the
can_execute() entry runs the side-effecting probe; the failure-time
entries are read afterwards. Returns the snapshot and the updated breaker. -/
def CircuitBreaker.get_status (cb : CircuitBreaker) (now : Int) :
    BreakerStatus × CircuitBreaker :=
  let st := cb.state.value
  let fc := cb.failure_count
  let sc := cb.success_count
  let r := cb.can_execute now
  match r.2.last_failure_time with
  | some t =>
    ({ state := st, failure_count := fc, success_count := sc,
       can_execute := r.1,
       time_since_last_failure := some (now - t),
       remaining_timeout := some (max 0 (r.2.reset_timeout - (now - t))) }, r.2)
  | none =>
    ({ state := st, failure_count := fc, success_count := sc,
       can_execute := r.1,
       time_since_last_failure := none,
       remaining_timeout := none }, r.2)

/-- A sequence of record_failure calls, one per listed instant. -/
def CircuitBreaker.record_failures (cb : CircuitBreaker) :
    List Int → CircuitBreaker
  | [] => cb
  | t :: ts => (cb.record_failure t).record_failures ts

/-- One externally triggered operation on a breaker: a can_execute probe
(at some instant), a recorded success, a recorded failure (at some
instant), or a manual reset. -/
inductive Step : CircuitBreaker → CircuitBreaker → Prop where
  | probe (now : Int) (cb : CircuitBreaker) : Step cb (cb.can_execute now).2
  | succ (cb : CircuitBreaker) : Step cb cb.record_success
  | fail (now : Int) (cb : CircuitBreaker) : Step cb (cb.record_failure now)
  | man_reset (cb : CircuitBreaker) : Step cb cb.reset

/-- Breakers reachable from a freshly constructed breaker by any sequence
of operations. -/
inductive Reachable : CircuitBreaker → Prop where
  | init (ft : Nat) (rt : Int) : Reachable (CircuitBreaker.init ft rt)
  | step {cb cb' : CircuitBreaker} :
      Reachable cb → Step cb cb' → Reachable cb'

/-- An OPEN example breaker used to witness the probe-window claims. -/
def cbOpenExample : CircuitBreaker :=
  { failure_threshold := 5, reset_timeout := 30, state := .OPEN,
    failure_count := 5, success_count := 2, last_failure_time := some 0 }

/-- A HALF_OPEN example breaker used to witness the trial-outcome claims. -/
def cbHalfOpenExample : CircuitBreaker :=
  { failure_threshold := 5, reset_timeout := 30, state := .HALF_OPEN,
    failure_count := 5, success_count := 0, last_failure_time := some 7 }

/-- SMSRequest from schema.py (recipient and message strings; the pydantic
pattern check is outside the orchestrator core). -/
structure SMSRequest where
  recipient : String
  message : String
deriving DecidableEq, Repr

/-- SMSResponse from schema.py; the timestamp is the clock instant. -/
structure SMSResponse where
  success : Bool
  message_id : String
  provider : String
  timestamp : Int
  error : Option String
deriving DecidableEq, Repr

/-- The observable outcome of one provider HTTP exchange, abstracting the
wire format of sms_strategy.py: the remote reports success, the remote
responds with an application-level error message, or the transport fails
(raise_for_status / network error). -/
inductive TransportOutcome where
  | apiSuccess (message_id : String)
  | apiError (message : String)
  | httpError (message : String)
deriving DecidableEq, Repr

/-- Whether the exchange reports success. -/
def TransportOutcome.isSuccess : TransportOutcome → Bool
  | .apiSuccess _ => true
  | _ => false

/-- One SMSProviderStrategy: its provider name, its own circuit breaker,
and the outcome its external HTTP exchange would produce. -/
structure Provider where
  name : String
  cb : CircuitBreaker
  transport : TransportOutcome
deriving DecidableEq, Repr

/-- SMSProviderStrategy.can_execute: delegates to the circuit breaker
(whose probe may transition OPEN to HALF_OPEN). -/
def Provider.can_execute (p : Provider) (now : Int) : Bool × Provider :=
  let r := p.cb.can_execute now
  (r.1, { p with cb := r.2 })

/-- The strategy send_sms template shared by ArkeselStrategy and
MnotifyStrategy: first an own can_execute check that raises without
touching the breaker further when denied; then the HTTP exchange, with
record_success on a reported success and record_failure before re-raising
on an API error or a transport error. An Except.error value stands for the
raised exception text seen by the caller. -/
def Provider.send_sms (p : Provider) (now : Int) :
    Except String SMSResponse × Provider :=
  let r := p.cb.can_execute now
  if r.1 then
    match p.transport with
    | .apiSuccess mid =>
      (.ok { success := true, message_id := mid, provider := p.name,
             timestamp := now, error := none },
       { p with cb := r.2.record_success })
    | .apiError m =>
      (.error (p.name ++ " API error: " ++ m),
       { p with cb := r.2.record_failure now })
    | .httpError m =>
      (.error (p.name ++ " HTTP error: " ++ m),
       { p with cb := r.2.record_failure now })
  else
    (.error (p.name ++ " circuit breaker is open"), { p with cb := r.2 })

/-- The Python f-string rendering of the optional last error (None prints
as the text None). -/
def formatLastError : Option String → String
  | none => "None"
  | some e => e

/-- The failure SMSResponse built when every provider was skipped or
failed. -/
def exhaustedResponse (now : Int) (last_error : Option String) : SMSResponse :=
  { success := false, message_id := "", provider := "none", timestamp := now,
    error := some ("All SMS providers failed. Last error: " ++
                   formatLastError last_error) }

/-- What one loop iteration of SMSOrchestrator.send_sms does to one
provider: the orchestrator-level can_execute call, then, when allowed, the
provider send (which repeats the eligibility check internally). -/
def attemptStep (now : Int) (p : Provider) : Provider :=
  let c := p.can_execute now
  if c.1 then (c.2.send_sms now).2 else c.2

/-- The error recorded against a provider by one loop iteration: none when
the provider is skipped or succeeds, otherwise the exception text the
orchestrator catches. -/
def attemptError (now : Int) (p : Provider) : Option String :=
  if (p.cb.can_execute now).1 then
    match p.transport with
    | .apiSuccess _ => none
    | .apiError m => some (p.name ++ " API error: " ++ m)
    | .httpError m => some (p.name ++ " HTTP error: " ++ m)
  else
    none

/-- The result of one SMSOrchestrator.send_sms call: the response, the
providers with their breakers as the call left them, and the names of the
providers on which a send was attempted, in order. -/
structure SendOutcome where
  response : SMSResponse
  providers : List Provider
  attempted : List String
deriving DecidableEq, Repr

/-- The fallback loop of SMSOrchestrator.send_sms: walk the providers in
order, skip a provider whose can_execute is false, attempt the rest; a
response with success=True returns immediately, any caught exception (or a
success=False response, re-raised as one) updates last_error and moves
on; when the list is exhausted, build the provider="none" failure. -/
def sendLoop (now : Int) : List Provider → Option String → SendOutcome
  | [], last_error =>
    { response := exhaustedResponse now last_error, providers := [],
      attempted := [] }
  | p :: rest, last_error =>
    let c := p.can_execute now
    if c.1 then
      let s := c.2.send_sms now
      match s.1 with
      | .ok resp =>
        if resp.success then
          { response := resp, providers := s.2 :: rest,
            attempted := [p.name] }
        else
          let out := sendLoop now rest
            (some ("Provider " ++ p.name ++ " returned success=False"))
          { response := out.response, providers := s.2 :: out.providers,
            attempted := p.name :: out.attempted }
      | .error e =>
        let out := sendLoop now rest (some e)
        { response := out.response, providers := s.2 :: out.providers,
          attempted := p.name :: out.attempted }
    else
      let out := sendLoop now rest last_error
      { response := out.response, providers := c.2 :: out.providers,
        attempted := out.attempted }

/-- SMSOrchestrator: holds the ordered provider list. -/
structure SMSOrchestrator where
  providers : List Provider
deriving DecidableEq, Repr

/-- SMSOrchestrator.send_sms: the fallback loop started with no recorded
last error. The request only feeds the unmodeled HTTP payload. -/
def SMSOrchestrator.send_sms (o : SMSOrchestrator) (now : Int)
    (_req : SMSRequest) : SendOutcome :=
  sendLoop now o.providers none

/-- SMSOrchestrator.reset_all_circuit_breakers: reset every provider
breaker. -/
def SMSOrchestrator.reset_all_circuit_breakers (o : SMSOrchestrator) :
    SMSOrchestrator :=
  { providers := o.providers.map (fun p => { p with cb := p.cb.reset }) }

/-- The last_error accumulator after the loop has walked the given
providers: each attempted-and-failed provider overwrites it with its
exception text. -/
def lastErrorAcc (now : Int) (ps : List Provider) (le : Option String) :
    Option String :=
  ps.foldl (fun acc q =>
    match attemptError now q with
    | some e => some e
    | none => acc) le

/-- A request used by the orchestrator witnesses. -/
def reqExample : SMSRequest :=
  { recipient := "+233200000001", message := "hello" }

/-- A provider skipped at instant 10: its breaker is OPEN since instant 0
with a 30 second timeout. -/
def pSkip : Provider :=
  { name := "arkesel", cb := cbOpenExample, transport := .httpError "timeout" }

/-- A provider whose breaker allows execution but whose exchange reports
an application-level error. -/
def pFail : Provider :=
  { name := "mnotify", cb := CircuitBreaker.init 2 30,
    transport := .apiError "insufficient balance" }

/-- A provider whose exchange reports success. -/
def pOk : Provider :=
  { name := "backup", cb := CircuitBreaker.init 2 30,
    transport := .apiSuccess "msg-1" }

/-- A provider placed after the succeeding one; it must not be invoked. -/
def pAfter : Provider :=
  { name := "never", cb := CircuitBreaker.init 2 30,
    transport := .apiSuccess "msg-2" }

/-- One entry of the SMSOrchestrator.get_provider_status mapping. -/
structure ProviderStatus where
  name : String
  available : Bool
  circuit_breaker : BreakerStatus
deriving DecidableEq, Repr

/-- What the status aggregation does to one provider: first
get_circuit_breaker_status() (which runs get_status and hence the
side-effecting can_execute probe), then the "available" can_execute call
on the already-updated breaker. -/
def Provider.statusStep (p : Provider) (now : Int) :
    ProviderStatus × Provider :=
  let cs := p.cb.get_status now
  let a := ({ p with cb := cs.2 } : Provider).can_execute now
  ({ name := p.name, available := a.1, circuit_breaker := cs.1 }, a.2)

/-- SMSOrchestrator.get_provider_status: per-provider status entries in
order, and the providers as the aggregation leaves them. -/
def SMSOrchestrator.get_provider_status (o : SMSOrchestrator) (now : Int) :
    List ProviderStatus × SMSOrchestrator :=
  (o.providers.map (fun p => (p.statusStep now).1),
   { providers := o.providers.map (fun p => (p.statusStep now).2) })

/-- The backoff performed at the top of a loop iteration of
send_sms_with_retry: no wait before the first attempt, 2^(attempt-1)
seconds before each retry (the loop counter starts at 0, so the k-th
retry has attempt = k). -/
def retryWait (attempt : Nat) : Nat :=
  if attempt > 0 then 2 ^ (attempt - 1) else 0

/-- The recorded list of performed sleeps after the iteration. -/
def retrySleeps (attempt : Nat) (sleeps : List Nat) : List Nat :=
  if attempt > 0 then sleeps ++ [2 ^ (attempt - 1)] else sleeps

/-- The result of SMSOrchestrator.send_sms_with_retry, instrumented with
the full history: one responses entry per send_sms call made, in order,
and one sleeps entry per performed backoff sleep, in order. -/
structure RetryResult where
  response : SMSResponse
  orch : SMSOrchestrator
  responses : List SMSResponse
  sleeps : List Nat
deriving DecidableEq, Repr

/-- The loop of SMSOrchestrator.send_sms_with_retry: for attempt in
0..max_retries, sleep the backoff (when attempt > 0, advancing the
clock), call send_sms once, return its response as soon as one has
success=True; after the loop, return the retry-exhaustion failure. -/
def retryLoop (req : SMSRequest) (max_retries attempt : Nat) (now : Int)
    (o : SMSOrchestrator) (resps : List SMSResponse) (sleeps : List Nat) :
    RetryResult :=
  if _h : attempt ≤ max_retries then
    if (o.send_sms (now + retryWait attempt) req).response.success then
      { response := (o.send_sms (now + retryWait attempt) req).response,
        orch := ⟨(o.send_sms (now + retryWait attempt) req).providers⟩,
        responses :=
          resps ++ [(o.send_sms (now + retryWait attempt) req).response],
        sleeps := retrySleeps attempt sleeps }
    else
      retryLoop req max_retries (attempt + 1) (now + retryWait attempt)
        ⟨(o.send_sms (now + retryWait attempt) req).providers⟩
        (resps ++ [(o.send_sms (now + retryWait attempt) req).response])
        (retrySleeps attempt sleeps)
  else
    { response := { success := false, message_id := "", provider := "none",
                    timestamp := now,
                    error := some ("All retry attempts failed after " ++
                      toString max_retries ++ " retries") },
      orch := o, responses := resps, sleeps := sleeps }
termination_by max_retries + 1 - attempt
decreasing_by omega

/-- SMSOrchestrator.send_sms_with_retry: the loop started at attempt 0
with empty history. -/
def SMSOrchestrator.send_sms_with_retry (o : SMSOrchestrator) (now : Int)
    (req : SMSRequest) (max_retries : Nat) : RetryResult :=
  retryLoop req max_retries 0 now o [] []

/-- The retry contract of claim C8, about an instrumented run: at most
max_retries + 1 send_sms calls; the performed sleeps are exactly
2^0, 2^1, ... one per retry; a successful result is the first successful
send_sms response and ends the run; a failed result means every one of
the max_retries + 1 calls failed and the retry-exhaustion failure is
returned. -/
def RetrySpec (max_retries : Nat) (out : RetryResult) : Prop :=
  out.responses.length ≤ max_retries + 1 ∧
  out.sleeps =
    (List.range (out.responses.length - 1)).map (fun i => (2 : Nat) ^ i) ∧
  (out.response.success = true →
    out.responses.getLast? = some out.response ∧
    ∀ r ∈ out.responses.dropLast, r.success = false) ∧
  (out.response.success = false →
    out.responses.length = max_retries + 1 ∧
    (∀ r ∈ out.responses, r.success = false) ∧
    out.response.provider = "none" ∧
    out.response.error = some ("All retry attempts failed after " ++
      toString max_retries ++ " retries"))

/-- can_execute in CLOSED: allowed, breaker unchanged. -/
lemma can_execute_closed (cb : CircuitBreaker) (now : Int)
    (h : cb.state = .CLOSED) : cb.can_execute now = (true, cb) := by
  simp [CircuitBreaker.can_execute, h]

/-- can_execute in HALF_OPEN: allowed, breaker unchanged. -/
lemma can_execute_half_open (cb : CircuitBreaker) (now : Int)
    (h : cb.state = .HALF_OPEN) : cb.can_execute now = (true, cb) := by
  simp [CircuitBreaker.can_execute, h]

/-- can_execute in OPEN with no recorded failure time: denied, unchanged. -/
lemma can_execute_open_none (cb : CircuitBreaker) (now : Int)
    (h : cb.state = .OPEN) (hl : cb.last_failure_time = none) :
    cb.can_execute now = (false, cb) := by
  simp [CircuitBreaker.can_execute, h, hl]

/-- can_execute in OPEN once the timeout has elapsed: allowed, transitions
to HALF_OPEN. -/
lemma can_execute_open_elapsed (cb : CircuitBreaker) (now t : Int)
    (h : cb.state = .OPEN) (hl : cb.last_failure_time = some t)
    (hge : now - t ≥ cb.reset_timeout) :
    cb.can_execute now = (true, cb.transition_to_half_open) := by
  simp [CircuitBreaker.can_execute, h, hl, hge]

/-- can_execute in OPEN before the timeout: denied, unchanged. -/
lemma can_execute_open_waiting (cb : CircuitBreaker) (now t : Int)
    (h : cb.state = .OPEN) (hl : cb.last_failure_time = some t)
    (hlt : now - t < cb.reset_timeout) :
    cb.can_execute now = (false, cb) := by
  have : ¬ now - t ≥ cb.reset_timeout := by omega
  simp [CircuitBreaker.can_execute, h, hl, this]

/-- A can_execute call that returns false leaves the breaker unchanged. -/
lemma can_execute_false_eq (cb : CircuitBreaker) (now : Int)
    (h : (cb.can_execute now).1 = false) : (cb.can_execute now).2 = cb := by
  cases hst : cb.state with
  | CLOSED => rw [can_execute_closed cb now hst] at h; simp at h
  | HALF_OPEN => rw [can_execute_half_open cb now hst] at h; simp at h
  | OPEN =>
    cases hlft : cb.last_failure_time with
    | none => rw [can_execute_open_none cb now hst hlft]
    | some t =>
      by_cases hc : now - t ≥ cb.reset_timeout
      · rw [can_execute_open_elapsed cb now t hst hlft hc] at h; simp at h
      · rw [can_execute_open_waiting cb now t hst hlft (by omega)]

/-- record_success in CLOSED: failure count ends at 0 (it was reset when
positive and was already 0 otherwise), success count incremented. -/
lemma record_success_closed (cb : CircuitBreaker) (h : cb.state = .CLOSED) :
    cb.record_success =
      { cb with failure_count := 0, success_count := cb.success_count + 1 } := by
  by_cases hf : cb.failure_count > 0
  · simp [CircuitBreaker.record_success, h, hf]
  · have h0 : cb.failure_count = 0 := by omega
    simp [CircuitBreaker.record_success, h, hf, h0]

/-- record_success in HALF_OPEN: increments the success count, then
transitions to CLOSED. -/
lemma record_success_half_open (cb : CircuitBreaker)
    (h : cb.state = .HALF_OPEN) :
    cb.record_success =
      ({ cb with success_count := cb.success_count + 1 } : CircuitBreaker).transition_to_closed := by
  simp [CircuitBreaker.record_success, h]

/-- record_success in OPEN: logged mismatch, no change. -/
lemma record_success_open (cb : CircuitBreaker) (h : cb.state = .OPEN) :
    cb.record_success = cb := by
  simp [CircuitBreaker.record_success, h]

/-- In CLOSED below the threshold, record_failure only increments the
failure count. -/
lemma record_failure_closed_no_trip (cb : CircuitBreaker) (now : Int)
    (hst : cb.state = .CLOSED)
    (hlt : cb.failure_count + 1 < cb.failure_threshold) :
    cb.record_failure now = { cb with failure_count := cb.failure_count + 1 } := by
  have hnot : ¬ cb.failure_count + 1 ≥ cb.failure_threshold := by omega
  simp [CircuitBreaker.record_failure, hst, hnot]

/-- In CLOSED at or above the threshold, record_failure increments the
failure count and transitions to OPEN. -/
lemma record_failure_closed_trip (cb : CircuitBreaker) (now : Int)
    (hst : cb.state = .CLOSED)
    (hge : cb.failure_count + 1 ≥ cb.failure_threshold) :
    cb.record_failure now =
      ({ cb with failure_count := cb.failure_count + 1 } : CircuitBreaker).transition_to_open now := by
  simp [CircuitBreaker.record_failure, hst, hge]

/-- record_failure in HALF_OPEN: transitions back to OPEN. -/
lemma record_failure_half_open (cb : CircuitBreaker) (now : Int)
    (h : cb.state = .HALF_OPEN) :
    cb.record_failure now = cb.transition_to_open now := by
  simp [CircuitBreaker.record_failure, h]

/-- record_failure in OPEN: no change. -/
lemma record_failure_open (cb : CircuitBreaker) (now : Int)
    (h : cb.state = .OPEN) : cb.record_failure now = cb := by
  simp [CircuitBreaker.record_failure, h]

/-- Claim C3, as stated, is false on the code: a failure recorded in CLOSED
below the threshold does not set last_failure_time. Concretely, a fresh
breaker with threshold 5 satisfies the hypotheses of the claim, yet after
record_failure at instant 100 its last_failure_time is still unset. -/
theorem claim_C3_counterexample :
    (CircuitBreaker.init 5 30).state = .CLOSED ∧
    (CircuitBreaker.init 5 30).failure_count + 1 <
      (CircuitBreaker.init 5 30).failure_threshold ∧
    ((CircuitBreaker.init 5 30).record_failure 100).last_failure_time = none := by
  refine ⟨rfl, by decide, rfl⟩

/-- Claim C3 (amended): for every breaker in CLOSED with
failure_count + 1 < failure_threshold, record_failure leaves the state
CLOSED, increments failure_count by one, and leaves last_failure_time
unchanged (it is set only on a transition to OPEN). -/
theorem claim_C3_record_failure_closed_below_threshold
    (cb : CircuitBreaker) (now : Int)
    (hst : cb.state = .CLOSED)
    (hlt : cb.failure_count + 1 < cb.failure_threshold) :
    (cb.record_failure now).state = .CLOSED ∧
    (cb.record_failure now).failure_count = cb.failure_count + 1 ∧
    (cb.record_failure now).last_failure_time = cb.last_failure_time := by
  rw [record_failure_closed_no_trip cb now hst hlt]
  exact ⟨hst, rfl, rfl⟩

/-- Witness for the amended claim C3 at a fresh breaker and instant 100. -/
theorem claim_C3_record_failure_closed_below_threshold_witness :
    ((CircuitBreaker.init 5 30).record_failure 100).state = .CLOSED ∧
    ((CircuitBreaker.init 5 30).record_failure 100).failure_count =
      (CircuitBreaker.init 5 30).failure_count + 1 ∧
    ((CircuitBreaker.init 5 30).record_failure 100).last_failure_time =
      (CircuitBreaker.init 5 30).last_failure_time :=
  claim_C3_record_failure_closed_below_threshold
    (CircuitBreaker.init 5 30) 100 rfl (by decide)

/-- Every single operation preserves the failure-time invariants. -/
lemma breaker_inv_step {cb cb' : CircuitBreaker}
    (h1 : cb.state = .OPEN → cb.last_failure_time.isSome)
    (h2 : cb.state = .CLOSED → cb.last_failure_time = none)
    (hs : Step cb cb') :
    (cb'.state = .OPEN → cb'.last_failure_time.isSome) ∧
    (cb'.state = .CLOSED → cb'.last_failure_time = none) := by
  cases hs with
  | probe now =>
    cases hst : cb.state with
    | CLOSED => rw [can_execute_closed cb now hst]; exact ⟨h1, h2⟩
    | HALF_OPEN => rw [can_execute_half_open cb now hst]; exact ⟨h1, h2⟩
    | OPEN =>
      cases hlft : cb.last_failure_time with
      | none => rw [can_execute_open_none cb now hst hlft]; exact ⟨h1, h2⟩
      | some t =>
        by_cases hc : now - t ≥ cb.reset_timeout
        · rw [can_execute_open_elapsed cb now t hst hlft hc]
          simp [CircuitBreaker.transition_to_half_open]
        · rw [can_execute_open_waiting cb now t hst hlft (by omega)]
          exact ⟨h1, h2⟩
  | succ =>
    cases hst : cb.state with
    | CLOSED =>
      rw [record_success_closed cb hst]
      exact ⟨fun h => h1 h, fun _ => h2 hst⟩
    | HALF_OPEN =>
      rw [record_success_half_open cb hst]
      simp [CircuitBreaker.transition_to_closed]
    | OPEN => rw [record_success_open cb hst]; exact ⟨h1, h2⟩
  | fail now =>
    cases hst : cb.state with
    | CLOSED =>
      by_cases hge : cb.failure_count + 1 ≥ cb.failure_threshold
      · rw [record_failure_closed_trip cb now hst hge]
        simp [CircuitBreaker.transition_to_open]
      · rw [record_failure_closed_no_trip cb now hst (by omega)]
        exact ⟨fun h => h1 h, fun _ => h2 hst⟩
    | HALF_OPEN =>
      rw [record_failure_half_open cb now hst]
      simp [CircuitBreaker.transition_to_open]
    | OPEN => rw [record_failure_open cb now hst]; exact ⟨h1, h2⟩
  | man_reset =>
    simp [CircuitBreaker.reset, CircuitBreaker.transition_to_closed]

/-- The failure-time invariants hold for every reachable breaker. -/
lemma breaker_inv (cb : CircuitBreaker) (h : Reachable cb) :
    (cb.state = .OPEN → cb.last_failure_time.isSome) ∧
    (cb.state = .CLOSED → cb.last_failure_time = none) := by
  induction h with
  | init ft rt => simp [CircuitBreaker.init]
  | step _ hs ih => exact breaker_inv_step ih.1 ih.2 hs

/-- Any step that enters CLOSED from a different state zeroes the failure
count (both entries to CLOSED go through _transition_to_closed). -/
lemma step_enters_closed {cb cb' : CircuitBreaker} (hs : Step cb cb')
    (hne : cb.state ≠ .CLOSED) (hc : cb'.state = .CLOSED) :
    cb'.failure_count = 0 := by
  cases hs with
  | probe now =>
    cases hst : cb.state with
    | CLOSED => exact absurd hst hne
    | HALF_OPEN =>
      rw [can_execute_half_open cb now hst] at hc
      simp [hst] at hc
    | OPEN =>
      cases hlft : cb.last_failure_time with
      | none =>
        rw [can_execute_open_none cb now hst hlft] at hc
        simp [hst] at hc
      | some t =>
        by_cases hcnd : now - t ≥ cb.reset_timeout
        · rw [can_execute_open_elapsed cb now t hst hlft hcnd] at hc
          simp [CircuitBreaker.transition_to_half_open] at hc
        · rw [can_execute_open_waiting cb now t hst hlft (by omega)] at hc
          simp [hst] at hc
  | succ =>
    cases hst : cb.state with
    | CLOSED => exact absurd hst hne
    | HALF_OPEN =>
      rw [record_success_half_open cb hst]
      simp [CircuitBreaker.transition_to_closed]
    | OPEN =>
      rw [record_success_open cb hst] at hc
      simp [hst] at hc
  | fail now =>
    cases hst : cb.state with
    | CLOSED => exact absurd hst hne
    | HALF_OPEN =>
      rw [record_failure_half_open cb now hst] at hc
      simp [CircuitBreaker.transition_to_open] at hc
    | OPEN =>
      rw [record_failure_open cb now hst] at hc
      simp [hst] at hc
  | man_reset =>
    simp [CircuitBreaker.reset, CircuitBreaker.transition_to_closed]

/-- Claim C4: for every breaker reachable from the initial state by any
sequence of can_execute, record_success, record_failure and reset calls,
OPEN implies last_failure_time is set, CLOSED implies it is unset, and any
step entering CLOSED from another state leaves failure_count at 0. -/
theorem claim_C4_reachable_invariants (cb : CircuitBreaker)
    (h : Reachable cb) :
    (cb.state = .OPEN → cb.last_failure_time.isSome) ∧
    (cb.state = .CLOSED → cb.last_failure_time = none) ∧
    ∀ cb', Step cb cb' → cb.state ≠ .CLOSED → cb'.state = .CLOSED →
      cb'.failure_count = 0 :=
  ⟨(breaker_inv cb h).1, (breaker_inv cb h).2,
   fun _ hs hne hc => step_enters_closed hs hne hc⟩

/-- Witness for claim C4 at a freshly constructed breaker. -/
theorem claim_C4_reachable_invariants_witness :
    ((CircuitBreaker.init 2 30).state = .OPEN →
      (CircuitBreaker.init 2 30).last_failure_time.isSome) ∧
    ((CircuitBreaker.init 2 30).state = .CLOSED →
      (CircuitBreaker.init 2 30).last_failure_time = none) ∧
    ∀ cb', Step (CircuitBreaker.init 2 30) cb' →
      (CircuitBreaker.init 2 30).state ≠ .CLOSED → cb'.state = .CLOSED →
      cb'.failure_count = 0 :=
  claim_C4_reachable_invariants (CircuitBreaker.init 2 30) (Reachable.init 2 30)

/-- A run of failures in CLOSED that stays strictly below the threshold
keeps the breaker CLOSED and adds one to the failure count per failure. -/
lemma record_failures_stay_closed :
    ∀ (ts : List Int) (cb : CircuitBreaker), cb.state = .CLOSED →
    cb.failure_count + ts.length < cb.failure_threshold →
    (cb.record_failures ts).state = .CLOSED ∧
    (cb.record_failures ts).failure_count = cb.failure_count + ts.length ∧
    (cb.record_failures ts).failure_threshold = cb.failure_threshold := by
  intro ts
  induction ts with
  | nil => intro cb hst _; exact ⟨hst, rfl, rfl⟩
  | cons t ts ih =>
    intro cb hst hlt
    simp only [List.length_cons] at hlt
    simp only [CircuitBreaker.record_failures, List.length_cons]
    have hstep : cb.record_failure t =
        { cb with failure_count := cb.failure_count + 1 } :=
      record_failure_closed_no_trip cb t hst (by omega)
    rw [hstep]
    have := ih { cb with failure_count := cb.failure_count + 1 }
      (by exact hst) (by simp; omega)
    refine ⟨this.1, ?_, ?_⟩
    · rw [this.2.1]; simp; omega
    · rw [this.2.2]

/-- A run of failures in CLOSED whose length exactly reaches the threshold
ends with the breaker OPEN. -/
lemma record_failures_trip :
    ∀ (ts : List Int) (cb : CircuitBreaker), cb.state = .CLOSED →
    cb.failure_count + ts.length = cb.failure_threshold →
    ts ≠ [] →
    (cb.record_failures ts).state = .OPEN := by
  intro ts
  induction ts with
  | nil => intro _ _ _ hne; exact absurd rfl hne
  | cons t ts ih =>
    intro cb hst heq _
    cases ts with
    | nil =>
      have hstep := record_failure_closed_trip cb t hst (by simp at heq; omega)
      simp only [CircuitBreaker.record_failures]
      rw [hstep]
      rfl
    | cons t2 ts2 =>
      simp only [List.length_cons] at heq
      have hstep : cb.record_failure t =
          { cb with failure_count := cb.failure_count + 1 } :=
        record_failure_closed_no_trip cb t hst (by omega)
      show ((cb.record_failure t).record_failures (t2 :: ts2)).state = .OPEN
      rw [hstep]
      exact ih _ (by exact hst) (by simp; omega) (by simp)

/-- Claim C5: starting from CLOSED with failure count 0 and a positive
threshold N, a run of consecutive record_failure calls leaves the breaker
CLOSED while fewer than N failures have been recorded, and OPEN exactly
when the N-th has been recorded. -/
theorem claim_C5_trips_exactly_at_threshold (cb : CircuitBreaker)
    (ts : List Int)
    (hst : cb.state = .CLOSED) (hfc : cb.failure_count = 0)
    (hpos : 0 < cb.failure_threshold) :
    (ts.length < cb.failure_threshold →
      (cb.record_failures ts).state = .CLOSED) ∧
    (ts.length = cb.failure_threshold →
      (cb.record_failures ts).state = .OPEN) := by
  constructor
  · intro hlt
    exact (record_failures_stay_closed ts cb hst (by omega)).1
  · intro heq
    refine record_failures_trip ts cb hst (by omega) ?_
    intro hnil
    rw [hnil] at heq
    simp at heq
    omega

/-- Witness for claim C5: a fresh breaker with threshold 3 stays CLOSED
after two failures and is OPEN after three. -/
theorem claim_C5_trips_exactly_at_threshold_witness :
    (([10, 20].length < (CircuitBreaker.init 3 30).failure_threshold →
      ((CircuitBreaker.init 3 30).record_failures [10, 20]).state = .CLOSED) ∧
    ([10, 20].length = (CircuitBreaker.init 3 30).failure_threshold →
      ((CircuitBreaker.init 3 30).record_failures [10, 20]).state = .OPEN)) ∧
    (([10, 20, 25].length < (CircuitBreaker.init 3 30).failure_threshold →
      ((CircuitBreaker.init 3 30).record_failures [10, 20, 25]).state = .CLOSED) ∧
    ([10, 20, 25].length = (CircuitBreaker.init 3 30).failure_threshold →
      ((CircuitBreaker.init 3 30).record_failures [10, 20, 25]).state = .OPEN)) :=
  ⟨claim_C5_trips_exactly_at_threshold (CircuitBreaker.init 3 30) [10, 20]
      rfl rfl (by decide),
   claim_C5_trips_exactly_at_threshold (CircuitBreaker.init 3 30) [10, 20, 25]
      rfl rfl (by decide)⟩

/-- Claim C6: in OPEN with a recorded failure time, a probe strictly before
the timeout is denied and changes nothing; a probe at or past the timeout
is allowed, moves the breaker to HALF_OPEN and zeroes the success count. -/
theorem claim_C6_open_probe_window (cb : CircuitBreaker) (now t : Int)
    (hst : cb.state = .OPEN) (hlft : cb.last_failure_time = some t) :
    (now - t < cb.reset_timeout → cb.can_execute now = (false, cb)) ∧
    (now - t ≥ cb.reset_timeout →
      (cb.can_execute now).1 = true ∧
      (cb.can_execute now).2.state = .HALF_OPEN ∧
      (cb.can_execute now).2.success_count = 0) := by
  constructor
  · intro hlt
    exact can_execute_open_waiting cb now t hst hlft hlt
  · intro hge
    rw [can_execute_open_elapsed cb now t hst hlft hge]
    exact ⟨rfl, rfl, rfl⟩

/-- Witness for claim C6 at an OPEN breaker probed at instant 50. -/
theorem claim_C6_open_probe_window_witness :
    ((50 : Int) - 0 < cbOpenExample.reset_timeout →
      cbOpenExample.can_execute 50 = (false, cbOpenExample)) ∧
    ((50 : Int) - 0 ≥ cbOpenExample.reset_timeout →
      (cbOpenExample.can_execute 50).1 = true ∧
      (cbOpenExample.can_execute 50).2.state = .HALF_OPEN ∧
      (cbOpenExample.can_execute 50).2.success_count = 0) :=
  claim_C6_open_probe_window cbOpenExample 50 0 rfl rfl

/-- Claim C7: in HALF_OPEN, a recorded success moves the breaker to CLOSED
with failure count 0 and no failure time, and a recorded failure moves it
to OPEN with the failure time refreshed and the success count zeroed. -/
theorem claim_C7_half_open_outcomes (cb : CircuitBreaker) (now : Int)
    (hst : cb.state = .HALF_OPEN) :
    (cb.record_success.state = .CLOSED ∧
     cb.record_success.failure_count = 0 ∧
     cb.record_success.last_failure_time = none) ∧
    ((cb.record_failure now).state = .OPEN ∧
     (cb.record_failure now).last_failure_time = some now ∧
     (cb.record_failure now).success_count = 0) := by
  constructor
  · rw [record_success_half_open cb hst]
    exact ⟨rfl, rfl, rfl⟩
  · rw [record_failure_half_open cb now hst]
    exact ⟨rfl, rfl, rfl⟩

/-- Witness for claim C7 at a HALF_OPEN breaker at instant 40. -/
theorem claim_C7_half_open_outcomes_witness :
    (cbHalfOpenExample.record_success.state = .CLOSED ∧
     cbHalfOpenExample.record_success.failure_count = 0 ∧
     cbHalfOpenExample.record_success.last_failure_time = none) ∧
    ((cbHalfOpenExample.record_failure 40).state = .OPEN ∧
     (cbHalfOpenExample.record_failure 40).last_failure_time = some 40 ∧
     (cbHalfOpenExample.record_failure 40).success_count = 0) :=
  claim_C7_half_open_outcomes cbHalfOpenExample 40 rfl

/-- Claim C9: reset always yields CLOSED with failure count 0 and no
failure time, reset is idempotent, and reset_all_circuit_breakers leaves
every provider breaker in that state whatever the prior states were. -/
theorem claim_C9_reset_idempotent_and_reset_all (cb : CircuitBreaker)
    (o : SMSOrchestrator) :
    (cb.reset.state = .CLOSED ∧ cb.reset.failure_count = 0 ∧
     cb.reset.last_failure_time = none) ∧
    cb.reset.reset = cb.reset ∧
    ∀ p ∈ o.reset_all_circuit_breakers.providers,
      p.cb.state = .CLOSED ∧ p.cb.failure_count = 0 ∧
      p.cb.last_failure_time = none := by
  refine ⟨⟨rfl, rfl, rfl⟩, rfl, ?_⟩
  intro p hp
  simp only [SMSOrchestrator.reset_all_circuit_breakers, List.mem_map] at hp
  obtain ⟨q, _, rfl⟩ := hp
  exact ⟨rfl, rfl, rfl⟩

/-- After a can_execute that allowed execution, an immediate second probe
at the same instant also allows it and changes nothing (the breaker is now
CLOSED or HALF_OPEN). -/
lemma can_execute_true_idem (cb : CircuitBreaker) (now : Int)
    (h : (cb.can_execute now).1 = true) :
    (cb.can_execute now).2.can_execute now = (true, (cb.can_execute now).2) := by
  cases hst : cb.state with
  | CLOSED =>
    rw [can_execute_closed cb now hst]
    exact can_execute_closed cb now hst
  | HALF_OPEN =>
    rw [can_execute_half_open cb now hst]
    exact can_execute_half_open cb now hst
  | OPEN =>
    cases hlft : cb.last_failure_time with
    | none => rw [can_execute_open_none cb now hst hlft] at h; simp at h
    | some t =>
      by_cases hge : now - t ≥ cb.reset_timeout
      · rw [can_execute_open_elapsed cb now t hst hlft hge]
        exact can_execute_half_open _ now rfl
      · rw [can_execute_open_waiting cb now t hst hlft (by omega)] at h
        simp at h

/-- A denied provider-level can_execute leaves the provider unchanged. -/
lemma provider_can_execute_false (p : Provider) (now : Int)
    (h : (p.cb.can_execute now).1 = false) :
    p.can_execute now = (false, p) := by
  simp [Provider.can_execute, h, can_execute_false_eq p.cb now h]

/-- After an allowing orchestrator-level probe, a send whose exchange
reports success returns the success response and records a success. -/
lemma provider_step_api_success (p : Provider) (now : Int) (mid : String)
    (hok : (p.cb.can_execute now).1 = true)
    (htr : p.transport = .apiSuccess mid) :
    (p.can_execute now).2.send_sms now =
      (.ok { success := true, message_id := mid, provider := p.name,
             timestamp := now, error := none },
       { p with cb := (p.cb.can_execute now).2.record_success }) := by
  simp [Provider.can_execute, Provider.send_sms,
        can_execute_true_idem p.cb now hok, htr]

/-- After an allowing probe, a send whose exchange reports an API error
raises the API-error text and records a failure. -/
lemma provider_step_api_error (p : Provider) (now : Int) (m : String)
    (hok : (p.cb.can_execute now).1 = true)
    (htr : p.transport = .apiError m) :
    (p.can_execute now).2.send_sms now =
      (.error (p.name ++ " API error: " ++ m),
       { p with cb := (p.cb.can_execute now).2.record_failure now }) := by
  simp [Provider.can_execute, Provider.send_sms,
        can_execute_true_idem p.cb now hok, htr]

/-- After an allowing probe, a send whose exchange fails at the transport
level raises the HTTP-error text and records a failure. -/
lemma provider_step_http_error (p : Provider) (now : Int) (m : String)
    (hok : (p.cb.can_execute now).1 = true)
    (htr : p.transport = .httpError m) :
    (p.can_execute now).2.send_sms now =
      (.error (p.name ++ " HTTP error: " ++ m),
       { p with cb := (p.cb.can_execute now).2.record_failure now }) := by
  simp [Provider.can_execute, Provider.send_sms,
        can_execute_true_idem p.cb now hok, htr]

/-- A skipped provider is left exactly as it was by its loop iteration. -/
lemma attemptStep_skipped (now : Int) (p : Provider)
    (h : (p.cb.can_execute now).1 = false) : attemptStep now p = p := by
  simp [attemptStep, provider_can_execute_false p now h]

/-- The accumulated last error is the last entry among the per-provider
errors of the walk, falling back to the initial accumulator. -/
lemma lastErrorAcc_eq_getLast (now : Int) :
    ∀ (ps : List Provider) (le : Option String),
    lastErrorAcc now ps le =
      match (ps.filterMap (attemptError now)).getLast? with
      | some e => some e
      | none => le := by
  intro ps
  induction ps with
  | nil => intro le; rfl
  | cons q ps ih =>
    intro le
    cases he : attemptError now q with
    | none =>
      simp only [lastErrorAcc, List.foldl_cons, he]
      simp only [lastErrorAcc] at ih
      rw [ih le]
      simp [List.filterMap_cons, he]
    | some e =>
      simp only [lastErrorAcc, List.foldl_cons, he]
      simp only [lastErrorAcc] at ih
      rw [ih (some e)]
      simp only [List.filterMap_cons, he]
      cases hfm : ps.filterMap (attemptError now) with
      | nil => simp
      | cons a l =>
        simp only [List.getLast?_cons_cons]
        cases hgl : (a :: l).getLast? with
        | none =>
          rw [List.getLast?_eq_none_iff] at hgl
          cases hgl
        | some y => simp

/-- One loop iteration on a provider that is attempted and fails with an
API error. -/
lemma attemptStep_api_error (now : Int) (q : Provider) (m : String)
    (hce : (q.cb.can_execute now).1 = true)
    (htrc : q.transport = .apiError m) :
    attemptStep now q =
      { q with cb := (q.cb.can_execute now).2.record_failure now } := by
  have h1 : (q.can_execute now).1 = true := hce
  simp only [attemptStep, h1, eq_self_iff_true, if_true]
  rw [provider_step_api_error q now m hce htrc]

/-- One loop iteration on a provider that is attempted and fails with a
transport error. -/
lemma attemptStep_http_error (now : Int) (q : Provider) (m : String)
    (hce : (q.cb.can_execute now).1 = true)
    (htrc : q.transport = .httpError m) :
    attemptStep now q =
      { q with cb := (q.cb.can_execute now).2.record_failure now } := by
  have h1 : (q.can_execute now).1 = true := hce
  simp only [attemptStep, h1, eq_self_iff_true, if_true]
  rw [provider_step_http_error q now m hce htrc]

/-- Walking a block of providers that are all skipped or failing prepends
their updated states and attempted names and folds their errors into the
accumulator, then continues with the rest of the list. -/
lemma sendLoop_fail_block (now : Int) :
    ∀ (pre : List Provider) (le : Option String) (rest : List Provider),
    (∀ q ∈ pre, (q.cb.can_execute now).1 = false ∨ q.transport.isSuccess = false) →
    sendLoop now (pre ++ rest) le =
      { response := (sendLoop now rest (lastErrorAcc now pre le)).response,
        providers := pre.map (attemptStep now) ++
          (sendLoop now rest (lastErrorAcc now pre le)).providers,
        attempted := (pre.filter (fun q => (q.cb.can_execute now).1)).map
            Provider.name ++
          (sendLoop now rest (lastErrorAcc now pre le)).attempted } := by
  intro pre
  induction pre with
  | nil => intro le rest _; simp [lastErrorAcc]
  | cons q pre ih =>
    intro le rest hfail
    have hq := hfail q (List.mem_cons_self q pre)
    have hrest : ∀ r ∈ pre, (r.cb.can_execute now).1 = false ∨
        r.transport.isSuccess = false :=
      fun r hr => hfail r (List.mem_cons_of_mem q hr)
    by_cases hce : (q.cb.can_execute now).1 = true
    · have htr : q.transport.isSuccess = false := by
        rcases hq with h | h
        · rw [hce] at h; cases h
        · exact h
      cases htrc : q.transport with
      | apiSuccess mid => rw [htrc] at htr; simp [TransportOutcome.isSuccess] at htr
      | apiError m =>
        show sendLoop now (q :: (pre ++ rest)) le = _
        simp only [sendLoop]
        rw [show q.can_execute now = ((q.cb.can_execute now).1,
              { q with cb := (q.cb.can_execute now).2 }) from rfl]
        simp only [hce, if_true]
        rw [show ({ q with cb := (q.cb.can_execute now).2 } : Provider) =
              (q.can_execute now).2 from rfl]
        rw [provider_step_api_error q now m hce htrc]
        simp only []
        rw [ih (some (q.name ++ " API error: " ++ m)) rest hrest]
        have hacc : lastErrorAcc now (q :: pre) le =
            lastErrorAcc now pre (some (q.name ++ " API error: " ++ m)) := by
          simp [lastErrorAcc, List.foldl_cons, attemptError, hce, htrc]
        rw [hacc]
        simp [List.filter_cons, hce, attemptStep_api_error now q m hce htrc]
      | httpError m =>
        show sendLoop now (q :: (pre ++ rest)) le = _
        simp only [sendLoop]
        rw [show q.can_execute now = ((q.cb.can_execute now).1,
              { q with cb := (q.cb.can_execute now).2 }) from rfl]
        simp only [hce, if_true]
        rw [show ({ q with cb := (q.cb.can_execute now).2 } : Provider) =
              (q.can_execute now).2 from rfl]
        rw [provider_step_http_error q now m hce htrc]
        simp only []
        rw [ih (some (q.name ++ " HTTP error: " ++ m)) rest hrest]
        have hacc : lastErrorAcc now (q :: pre) le =
            lastErrorAcc now pre (some (q.name ++ " HTTP error: " ++ m)) := by
          simp [lastErrorAcc, List.foldl_cons, attemptError, hce, htrc]
        rw [hacc]
        simp [List.filter_cons, hce, attemptStep_http_error now q m hce htrc]
    · have hce' : (q.cb.can_execute now).1 = false := by
        cases h : (q.cb.can_execute now).1
        · rfl
        · exact absurd h hce
      show sendLoop now (q :: (pre ++ rest)) le = _
      simp only [sendLoop]
      rw [provider_can_execute_false q now hce']
      simp only [Bool.false_eq_true, if_false]
      rw [ih le rest hrest]
      have hacc : lastErrorAcc now (q :: pre) le = lastErrorAcc now pre le := by
        simp [lastErrorAcc, List.foldl_cons, attemptError, hce']
      rw [hacc]
      simp [attemptStep_skipped now q hce', List.filter_cons, hce']

/-- One loop iteration on a provider that is attempted and succeeds. -/
lemma attemptStep_api_success (now : Int) (q : Provider) (mid : String)
    (hce : (q.cb.can_execute now).1 = true)
    (htrc : q.transport = .apiSuccess mid) :
    attemptStep now q =
      { q with cb := (q.cb.can_execute now).2.record_success } := by
  have h1 : (q.can_execute now).1 = true := hce
  simp only [attemptStep, h1, eq_self_iff_true, if_true]
  rw [provider_step_api_success q now mid hce htrc]

/-- A provider at the head of the walk whose probe allows execution and
whose exchange reports success ends the walk immediately: its success
response is returned, only it was attempted, and the rest of the list is
untouched. -/
lemma sendLoop_head_success (now : Int) (p : Provider) (post : List Provider)
    (le : Option String) (mid : String)
    (hok : (p.cb.can_execute now).1 = true)
    (htr : p.transport = .apiSuccess mid) :
    sendLoop now (p :: post) le =
      { response := { success := true, message_id := mid, provider := p.name,
                      timestamp := now, error := none },
        providers := attemptStep now p :: post,
        attempted := [p.name] } := by
  have h1 : (p.can_execute now).1 = true := hok
  simp only [sendLoop, h1, eq_self_iff_true, if_true]
  rw [provider_step_api_success p now mid hok htr,
      attemptStep_api_success now p mid hok htr]
  rfl

/-- Claim C1: send_sms walks the providers in order; every provider whose
probe denies execution is skipped with its breaker untouched; the first
provider that is attempted and succeeds has its success response returned
immediately; the providers after it are not invoked (they are returned
exactly as passed in, and their names are absent from the attempted
list). -/
theorem claim_C1_fallback_first_success (now : Int) (req : SMSRequest)
    (pre : List Provider) (p : Provider) (post : List Provider) (mid : String)
    (hpre : ∀ q ∈ pre,
      (q.cb.can_execute now).1 = false ∨ q.transport.isSuccess = false)
    (hok : (p.cb.can_execute now).1 = true)
    (htr : p.transport = .apiSuccess mid) :
    ((SMSOrchestrator.mk (pre ++ p :: post)).send_sms now req).response =
      { success := true, message_id := mid, provider := p.name,
        timestamp := now, error := none } ∧
    ((SMSOrchestrator.mk (pre ++ p :: post)).send_sms now req).providers =
      pre.map (attemptStep now) ++ attemptStep now p :: post ∧
    ((SMSOrchestrator.mk (pre ++ p :: post)).send_sms now req).attempted =
      (pre.filter (fun q => (q.cb.can_execute now).1)).map Provider.name ++
        [p.name] ∧
    ∀ q ∈ pre, (q.cb.can_execute now).1 = false → attemptStep now q = q := by
  unfold SMSOrchestrator.send_sms
  rw [show (SMSOrchestrator.mk (pre ++ p :: post)).providers =
        pre ++ p :: post from rfl]
  rw [sendLoop_fail_block now pre none (p :: post) hpre]
  rw [sendLoop_head_success now p post (lastErrorAcc now pre none) mid hok htr]
  exact ⟨rfl, rfl, rfl, fun q _ hq => attemptStep_skipped now q hq⟩

/-- Claim C2: when every provider is skipped or fails, send_sms returns
(the embedding is a total function, so nothing escapes as an unhandled
fault) the structured failure with success false, provider "none", and an
error message naming the LAST error observed among the attempts. -/
theorem claim_C2_exhaustion_returns_failure (now : Int) (req : SMSRequest)
    (providers : List Provider)
    (h : ∀ q ∈ providers,
      (q.cb.can_execute now).1 = false ∨ q.transport.isSuccess = false) :
    ((SMSOrchestrator.mk providers).send_sms now req).response =
      { success := false, message_id := "", provider := "none",
        timestamp := now,
        error := some ("All SMS providers failed. Last error: " ++
          formatLastError
            ((providers.filterMap (attemptError now)).getLast?)) } := by
  unfold SMSOrchestrator.send_sms
  have hsplit : sendLoop now providers none =
      sendLoop now (providers ++ []) none := by rw [List.append_nil]
  rw [show (SMSOrchestrator.mk providers).providers = providers from rfl,
      hsplit, sendLoop_fail_block now providers none [] h]
  show exhaustedResponse now (lastErrorAcc now providers none) = _
  rw [lastErrorAcc_eq_getLast now providers none]
  cases hgl : (providers.filterMap (attemptError now)).getLast? with
  | none => rfl
  | some e => rfl

/-- Witness for claim C1: skipped OPEN provider, failing provider,
succeeding provider, then an untouched trailing provider, at instant 10. -/
theorem claim_C1_fallback_first_success_witness :
    ((SMSOrchestrator.mk ([pSkip, pFail] ++ pOk :: [pAfter])).send_sms 10
        reqExample).response =
      { success := true, message_id := "msg-1", provider := pOk.name,
        timestamp := 10, error := none } ∧
    ((SMSOrchestrator.mk ([pSkip, pFail] ++ pOk :: [pAfter])).send_sms 10
        reqExample).providers =
      [pSkip, pFail].map (attemptStep 10) ++ attemptStep 10 pOk :: [pAfter] ∧
    ((SMSOrchestrator.mk ([pSkip, pFail] ++ pOk :: [pAfter])).send_sms 10
        reqExample).attempted =
      ([pSkip, pFail].filter (fun q => (q.cb.can_execute 10).1)).map
          Provider.name ++ [pOk.name] ∧
    ∀ q ∈ [pSkip, pFail], (q.cb.can_execute 10).1 = false →
      attemptStep 10 q = q :=
  claim_C1_fallback_first_success 10 reqExample [pSkip, pFail] pOk [pAfter]
    "msg-1" (by decide) (by decide) (by decide)

/-- Witness for claim C2: a skipped provider then a failing provider, at
instant 10; the reported error is the failing provider's (the last). -/
theorem claim_C2_exhaustion_returns_failure_witness :
    ((SMSOrchestrator.mk [pSkip, pFail]).send_sms 10 reqExample).response =
      { success := false, message_id := "", provider := "none",
        timestamp := 10,
        error := some ("All SMS providers failed. Last error: " ++
          formatLastError
            (([pSkip, pFail].filterMap (attemptError 10)).getLast?)) } :=
  claim_C2_exhaustion_returns_failure 10 reqExample [pSkip, pFail] (by decide)

/-- A provider whose breaker is HALF_OPEN is reported available and left
unchanged by a provider-level can_execute call. -/
lemma provider_can_execute_half_open (p : Provider) (now : Int)
    (h : p.cb.state = .HALF_OPEN) : p.can_execute now = (true, p) := by
  simp [Provider.can_execute, can_execute_half_open p.cb now h]

/-- get_status on an OPEN breaker past its timeout leaves the breaker in
HALF_OPEN. -/
lemma get_status_snd_open_elapsed (cb : CircuitBreaker) (now t : Int)
    (hst : cb.state = .OPEN) (hlft : cb.last_failure_time = some t)
    (hge : now - t ≥ cb.reset_timeout) :
    (cb.get_status now).2 = cb.transition_to_half_open := by
  have hprobe := can_execute_open_elapsed cb now t hst hlft hge
  simp only [CircuitBreaker.get_status, hprobe]
  cases hl : cb.transition_to_half_open.last_failure_time <;> rfl

/-- The snapshot taken by get_status on an OPEN breaker past its timeout
reports can_execute = true. -/
lemma get_status_fst_open_elapsed (cb : CircuitBreaker) (now t : Int)
    (hst : cb.state = .OPEN) (hlft : cb.last_failure_time = some t)
    (hge : now - t ≥ cb.reset_timeout) :
    (cb.get_status now).1.can_execute = true := by
  have hprobe := can_execute_open_elapsed cb now t hst hlft hge
  simp only [CircuitBreaker.get_status, hprobe]
  cases hl : cb.transition_to_half_open.last_failure_time <;> rfl

/-- The per-provider status step on a provider whose breaker is OPEN past
its timeout: the provider comes out holding the HALF_OPEN breaker and is
reported available. -/
lemma statusStep_open_elapsed (p : Provider) (now t : Int)
    (hst : p.cb.state = .OPEN) (hlft : p.cb.last_failure_time = some t)
    (hge : now - t ≥ p.cb.reset_timeout) :
    p.statusStep now =
      ({ name := p.name, available := true,
         circuit_breaker := (p.cb.get_status now).1 },
       { p with cb := p.cb.transition_to_half_open }) := by
  have hsnd := get_status_snd_open_elapsed p.cb now t hst hlft hge
  have hca : ({ p with cb := p.cb.transition_to_half_open } :
      Provider).can_execute now =
      (true, { p with cb := p.cb.transition_to_half_open }) :=
    provider_can_execute_half_open _ now rfl
  simp only [Provider.statusStep]
  rw [hsnd, hca]

/-- Claim C10: reading status is not side-effect-free. For a breaker OPEN
with the timeout elapsed, one get_status call flips it to HALF_OPEN with
success count 0 and reports can_execute = true in the snapshot; the
orchestrator aggregation applies exactly this per-provider step to each
provider in order, so a provider holding such a breaker comes out of
get_provider_status in HALF_OPEN and marked available. -/
theorem claim_C10_get_status_side_effect (cb : CircuitBreaker) (now t : Int)
    (hst : cb.state = .OPEN) (hlft : cb.last_failure_time = some t)
    (hge : now - t ≥ cb.reset_timeout) :
    ((cb.get_status now).2.state = .HALF_OPEN ∧
     (cb.get_status now).2.success_count = 0 ∧
     (cb.get_status now).1.can_execute = true) ∧
    ∀ (nm : String) (tr : TransportOutcome) (pre post : List Provider),
      (SMSOrchestrator.mk
          (pre ++ ({ name := nm, cb := cb, transport := tr } : Provider) ::
            post)).get_provider_status now =
        (pre.map (fun q => (q.statusStep now).1) ++
          (({ name := nm, cb := cb, transport := tr } : Provider).statusStep
              now).1 :: post.map (fun q => (q.statusStep now).1),
         { providers := pre.map (fun q => (q.statusStep now).2) ++
            (({ name := nm, cb := cb, transport := tr } : Provider).statusStep
                now).2 :: post.map (fun q => (q.statusStep now).2) }) ∧
      (({ name := nm, cb := cb, transport := tr } : Provider).statusStep
          now).2.cb.state = .HALF_OPEN ∧
      (({ name := nm, cb := cb, transport := tr } : Provider).statusStep
          now).1.available = true := by
  have hsnd := get_status_snd_open_elapsed cb now t hst hlft hge
  refine ⟨⟨by rw [hsnd]; rfl, by rw [hsnd]; rfl,
           get_status_fst_open_elapsed cb now t hst hlft hge⟩, ?_⟩
  intro nm tr pre post
  have hstep := statusStep_open_elapsed
    ({ name := nm, cb := cb, transport := tr } : Provider) now t hst hlft hge
  refine ⟨?_, by rw [hstep]; rfl, by rw [hstep]⟩
  simp [SMSOrchestrator.get_provider_status]

/-- Witness for claim C10: the OPEN example breaker probed by get_status
at instant 50, and its provider in the middle of an aggregation. -/
theorem claim_C10_get_status_side_effect_witness :
    (((cbOpenExample.get_status 50).2.state = .HALF_OPEN ∧
      (cbOpenExample.get_status 50).2.success_count = 0 ∧
      (cbOpenExample.get_status 50).1.can_execute = true) ∧
     ∀ (nm : String) (tr : TransportOutcome) (pre post : List Provider),
       (SMSOrchestrator.mk
           (pre ++ ({ name := nm, cb := cbOpenExample, transport := tr } :
             Provider) :: post)).get_provider_status 50 =
         (pre.map (fun q => (q.statusStep 50).1) ++
           (({ name := nm, cb := cbOpenExample, transport := tr } :
               Provider).statusStep 50).1 ::
             post.map (fun q => (q.statusStep 50).1),
          { providers := pre.map (fun q => (q.statusStep 50).2) ++
             (({ name := nm, cb := cbOpenExample, transport := tr } :
                 Provider).statusStep 50).2 ::
               post.map (fun q => (q.statusStep 50).2) }) ∧
       (({ name := nm, cb := cbOpenExample, transport := tr } :
           Provider).statusStep 50).2.cb.state = .HALF_OPEN ∧
       (({ name := nm, cb := cbOpenExample, transport := tr } :
           Provider).statusStep 50).1.available = true) :=
  claim_C10_get_status_side_effect cbOpenExample 50 0 rfl rfl (by decide)

/-- retrySleeps turns the history for attempt into the history for
attempt + 1. -/
lemma retrySleeps_range (attempt : Nat) :
    retrySleeps attempt
      ((List.range (attempt - 1)).map (fun i => (2 : Nat) ^ i)) =
    (List.range attempt).map (fun i => (2 : Nat) ^ i) := by
  cases attempt with
  | zero => rfl
  | succ k =>
    simp only [retrySleeps, Nat.succ_sub_one, if_pos (Nat.succ_pos k)]
    rw [List.range_succ, List.map_append]
    rfl

/-- The inductive invariant of the retry loop: entered at a given attempt
with a consistent history of earlier failed calls and performed sleeps,
the loop satisfies the retry contract. -/
lemma retryLoop_spec (req : SMSRequest) (max_retries : Nat) :
    ∀ (fuel attempt : Nat) (now : Int) (o : SMSOrchestrator)
      (resps : List SMSResponse) (sleeps : List Nat),
    max_retries + 1 - attempt = fuel →
    resps.length = attempt →
    (∀ r ∈ resps, r.success = false) →
    sleeps = (List.range (attempt - 1)).map (fun i => (2 : Nat) ^ i) →
    attempt ≤ max_retries + 1 →
    RetrySpec max_retries
      (retryLoop req max_retries attempt now o resps sleeps) := by
  intro fuel
  induction fuel with
  | zero =>
    intro attempt now o resps sleeps hfuel hlen hfail hsleeps hle
    have hgt : ¬ attempt ≤ max_retries := by omega
    unfold retryLoop
    rw [dif_neg hgt]
    refine ⟨by simp only; omega, ?_, ?_, ?_⟩
    · simp only
      rw [hlen]
      exact hsleeps
    · intro h
      exact absurd h (by simp)
    · intro _
      exact ⟨by simp only; omega, hfail, rfl, rfl⟩
  | succ fuel ih =>
    intro attempt now o resps sleeps hfuel hlen hfail hsleeps hle
    have hle2 : attempt ≤ max_retries := by omega
    unfold retryLoop
    rw [dif_pos hle2]
    by_cases hs :
        (o.send_sms (now + retryWait attempt) req).response.success = true
    · rw [if_pos hs]
      subst hsleeps
      refine ⟨?_, ?_, ?_, ?_⟩
      · simp only [List.length_append, List.length_cons, List.length_nil, hlen]
        omega
      · simp only [List.length_append, List.length_cons, List.length_nil,
          hlen, Nat.add_sub_cancel]
        exact retrySleeps_range attempt
      · intro _
        exact ⟨List.getLast?_concat _,
          by rw [List.dropLast_concat]; exact hfail⟩
      · intro h
        simp only at h
        rw [hs] at h
        cases h
    · rw [if_neg hs]
      have hs' : (o.send_sms (now + retryWait attempt) req).response.success =
          false := by
        cases hval : (o.send_sms (now + retryWait attempt) req).response.success
        · rfl
        · exact absurd hval hs
      refine ih (attempt + 1) (now + retryWait attempt) _ _ _
        (by omega) ?_ ?_ ?_ (by omega)
      · simp [hlen]
      · intro r hr
        rcases List.mem_append.mp hr with h | h
        · exact hfail r h
        · rw [List.mem_singleton.mp h]
          exact hs'
      · rw [hsleeps, Nat.add_sub_cancel]
        exact retrySleeps_range attempt

/-- Claim C8: send_sms_with_retry makes at most max_retries + 1 send_sms
calls, sleeps 2^(attempt-1) seconds before each retry and never before
the first attempt, returns the first successful send_sms response as soon
as one occurs (it is the last call made and every earlier call failed),
and otherwise, after all max_retries + 1 calls fail, returns the
retry-exhaustion failure result. -/
theorem claim_C8_retry_policy (o : SMSOrchestrator) (now : Int)
    (req : SMSRequest) (max_retries : Nat) :
    (o.send_sms_with_retry now req max_retries).responses.length ≤
      max_retries + 1 ∧
    (o.send_sms_with_retry now req max_retries).sleeps =
      (List.range
        ((o.send_sms_with_retry now req max_retries).responses.length -
          1)).map (fun i => (2 : Nat) ^ i) ∧
    ((o.send_sms_with_retry now req max_retries).response.success = true →
      (o.send_sms_with_retry now req max_retries).responses.getLast? =
        some (o.send_sms_with_retry now req max_retries).response ∧
      ∀ r ∈ (o.send_sms_with_retry now req max_retries).responses.dropLast,
        r.success = false) ∧
    ((o.send_sms_with_retry now req max_retries).response.success = false →
      (o.send_sms_with_retry now req max_retries).responses.length =
        max_retries + 1 ∧
      (∀ r ∈ (o.send_sms_with_retry now req max_retries).responses,
        r.success = false) ∧
      (o.send_sms_with_retry now req max_retries).response.provider =
        "none" ∧
      (o.send_sms_with_retry now req max_retries).response.error =
        some ("All retry attempts failed after " ++ toString max_retries ++
          " retries")) := by
  have h := retryLoop_spec req max_retries (max_retries + 1) 0 now o [] []
    (by omega) rfl (by intro r hr; cases hr) (by decide) (by omega)
  exact h

end Gateway
